import Mathlib

/-!
Verification of the markdown response-formatting pipeline of the Jira MCP
server: the create-metadata / create-issue formatters
(`src/controllers/atlassian.issues.create.formatter.ts`) and the shared
formatter utilities (`src/utils/formatter.util.ts`).

Modelling conventions:
* A TS string is a Lean `String`; template literals become explicit `++`.
* A JS object's `Object.entries` view is an association list in insertion
  order.
* TS `number` fields that hold integers (counts, totals, offsets) are `Int`.
* Optional TS fields are `Option`; JS truthiness of an optional string is
  `strTruthy` (absent and `""` are falsy).
* `formatDate(new Date())` is abstracted as a `now : String` parameter: every
  formatter is a pure function of its input and this timestamp string.
* The JS `Date` runtime (`toLocaleString`, `new Date(string)`) is a `DateEnv`
  record of functions; `none` results model a thrown exception, caught by the
  source's `try`/`catch`.
* The diagnostic logger call in `formatPagination` does not affect the return
  value and is not modelled.
-/

namespace JiraFmt

/-- JS truthiness of an optional string: `undefined` and `""` are falsy. -/
def strTruthy : Option String → Bool
  | none => false
  | some s => s != ""

/-- Models the JS expression `a || d` for an optional string `a`:
falls back to `d` when `a` is absent or empty. -/
def jsOr : Option String → String → String
  | some s, d => if s == "" then d else s
  | none, d => d

/-- Models `Array.prototype.join('\n')` on the accumulated lines array. -/
def joinLines : List String → String
  | [] => ""
  | [s] => s
  | s :: t :: rest => s ++ "\n" ++ joinLines (t :: rest)

/-- Models `Array.prototype.join(sep)`. -/
def joinSep (sep : String) : List String → String
  | [] => ""
  | [s] => s
  | s :: t :: rest => s ++ sep ++ joinSep sep (t :: rest)

/-- Models `String.prototype.startsWith`. -/
def jsStartsWith (s pat : String) : Bool :=
  pat.data.isPrefixOf s.data

/-- JS whitespace test for the characters relevant to `String.prototype.trim`. -/
def jsWhitespace (c : Char) : Bool :=
  c == ' ' || c == '\t' || c == '\n' || c == '\r'

/-- Models `String.prototype.trim`: strip whitespace from both ends. -/
def jsTrim (s : String) : String :=
  String.mk (((s.data.dropWhile jsWhitespace).reverse.dropWhile jsWhitespace).reverse)

/-- Replace the first occurrence of `pat` in the character list, as
`String.prototype.replace` does with a string pattern. -/
def replaceFirstAux (pat repl : List Char) : List Char → List Char
  | [] => []
  | c :: rest =>
    if pat.isPrefixOf (c :: rest) then repl ++ (c :: rest).drop pat.length
    else c :: replaceFirstAux pat repl rest

/-- Models `s.replace(pat, repl)` with a string `pat`: first occurrence only. -/
def jsReplaceFirst (s pat repl : String) : String :=
  String.mk (replaceFirstAux pat.data repl.data s.data)

/-- `formatUrl` from `src/utils/formatter.util.ts`:
`'Not available'` for a falsy url, else a markdown link with `title || url`
as the link text. -/
def formatUrl (url : Option String := none) (title : Option String := none) : String :=
  match url with
  | none => "Not available"
  | some u =>
    if u == "" then "Not available"
    else "[" ++ jsOr title u ++ "](" ++ u ++ ")"

/-- `formatHeading` from `src/utils/formatter.util.ts`: clamp the level to
`[1,6]` and prefix that many `#` characters. -/
def formatHeading (text : String) (level : Nat := 1) : String :=
  String.mk (List.replicate (min (max level 1) 6) '#') ++ " " ++ text

/-- `formatSeparator` from `src/utils/formatter.util.ts`. -/
def formatSeparator : String := "---"

/-- A JS `Date` object, identified by its time value. -/
structure JsDate where
  ms : Int

/-- The JS date runtime used by `formatValue`: `toLocaleString` on a `Date`
object, and `new Date(string).toLocaleString()` for date strings. A `none`
result models a thrown exception (caught by the source's `try`/`catch`). -/
structure DateEnv where
  dateToLocaleString : JsDate → Option String
  parseToLocaleString : String → Option String

/-- A dynamically-typed value passed to `formatValue`, one constructor per
`typeof`/`instanceof` case the source distinguishes. `other` carries the
result of JS `String(value)` for values of any remaining shape. -/
inductive JsValue where
  | nullOrUndef
  | date (d : JsDate)
  | urlObj (url : String) (title : Option String)
  | str (s : String)
  | bool (b : Bool)
  | other (repr : String)

/-- The test `/^\d{4}-\d{2}-\d{2}T\d{2}:\d{2}:\d{2}/.test(value)` from
`formatValue`: an ISO-8601 date-time head of the string. -/
def isoDateTimeMatch (s : String) : Bool :=
  match s.data with
  | y1 :: y2 :: y3 :: y4 :: q1 :: m1 :: m2 :: q2 :: d1 :: d2 :: qt ::
      h1 :: h2 :: qc1 :: n1 :: n2 :: qc2 :: s1 :: s2 :: _ =>
    y1.isDigit && y2.isDigit && y3.isDigit && y4.isDigit && (q1 == '-') &&
    m1.isDigit && m2.isDigit && (q2 == '-') && d1.isDigit && d2.isDigit &&
    (qt == 'T') && h1.isDigit && h2.isDigit && (qc1 == ':') &&
    n1.isDigit && n2.isDigit && (qc2 == ':') && s1.isDigit && s2.isDigit
  | _ => false

/-- `formatValue` from `src/utils/formatter.util.ts`. -/
def formatValue (env : DateEnv) (value : JsValue) : String :=
  match value with
  | JsValue.nullOrUndef => "Not available"
  | JsValue.date d =>
    match env.dateToLocaleString d with
    | some out => out
    | none => "Invalid date"
  | JsValue.urlObj url title => formatUrl (some url) title
  | JsValue.str s =>
    if jsStartsWith s "http://" || jsStartsWith s "https://" then formatUrl (some s)
    else if isoDateTimeMatch s then
      match env.parseToLocaleString s with
      | some out => out
      | none => "Invalid date string"
    else s
  | JsValue.bool b => if b then "Yes" else "No"
  | JsValue.other r => r

/-- `formatBulletList` from `src/utils/formatter.util.ts`: skip null/undefined
values, render each surviving entry as a `- **key**: value` bullet. -/
def formatBulletList (env : DateEnv) (items : List (String × JsValue))
    (keyFormatter : Option (String → String) := none) : String :=
  joinLines (items.filterMap fun kv =>
    match kv.2 with
    | JsValue.nullOrUndef => none
    | v =>
      some ("- **" ++ (match keyFormatter with
                       | some f => f kv.1
                       | none => kv.1) ++ "**: " ++ formatValue env v))

/-- `ResponsePagination` from `src/types/common.types.ts` (the type file is
not part of the sources; field set and optionality follow the destructuring
`const { count = 0, hasMore, nextCursor, total } = pagination` in
`formatPagination` and the spec's data model: `count?`/`total?` are numbers,
`nextCursor?` is the next start-at offset rendered as a string). -/
structure ResponsePagination where
  count : Option Int := none
  hasMore : Bool
  nextCursor : Option String := none
  total : Option Int := none

/-- The `*Showing …*` block of `formatPagination`: the `total`-aware line
when `total` is defined and non-negative, else the plain count line when the
defaulted count is non-negative, else nothing. The destructuring
`const { count = 0, ... }` is rendered as `count.getD 0`. -/
def showingParts (count : Option Int) : Option Int → List String
  | some total =>
    if 0 ≤ total then
      ["*Showing " ++ toString (count.getD 0) ++ " of "
        ++ toString total ++ " total items.*"]
    else if 0 ≤ count.getD 0 then
      ["*Showing " ++ toString (count.getD 0) ++ " item"
        ++ (if count.getD 0 != 1 then "s" else "") ++ ".*"]
    else []
  | none =>
    if 0 ≤ count.getD 0 then
      ["*Showing " ++ toString (count.getD 0) ++ " item"
        ++ (if count.getD 0 != 1 then "s" else "") ++ ".*"]
    else []

/-- The parts array built by `formatPagination` before `join('\n')`. -/
def formatPaginationParts (pagination : ResponsePagination) (now : String) : List String :=
  [formatSeparator]
  ++ showingParts pagination.count pagination.total
  ++ (if pagination.hasMore then ["More results are available."] else [])
  ++ (if pagination.hasMore && strTruthy pagination.nextCursor then
        ["*Use --start-at " ++ pagination.nextCursor.getD "" ++ " to view more.*"]
      else [])
  ++ ["*Information retrieved at: " ++ now ++ "*"]

/-- `formatPagination` from `src/utils/formatter.util.ts`: parts joined with
newlines, then `trim()`. -/
def formatPagination (pagination : ResponsePagination) (now : String) : String :=
  jsTrim (joinLines (formatPaginationParts pagination now))

/-- Field schema inside `CreateMetaField`. -/
structure FieldSchema where
  type : String
  system : Option String := none
  custom : Option String := none

/-- One element of an `allowedValues` array: either an object carrying a
`name` property (rendered via `String(val.name)`) or any other value
(rendered via `String(val)`). -/
inductive AllowedValue where
  | withName (name : String)
  | other (repr : String)

/-- The string a single allowed value is reduced to in `formatFieldList`. -/
def AllowedValue.display : AllowedValue → String
  | AllowedValue.withName n => n
  | AllowedValue.other r => r

/-- `CreateMetaField` from the vendor types: one creatable field.
`defaultValue` carries `String(defaultValue)` when the JS value is neither
`undefined` nor `null`. -/
structure CreateMetaField where
  name : String
  key : Option String := none
  fieldId : Option String := none
  required : Bool
  schema : FieldSchema
  allowedValues : Option (List AllowedValue) := none
  defaultValue : Option String := none

/-- An issue type of the legacy multi-type metadata shape. -/
structure IssueType where
  id : String
  name : String
  description : Option String := none
  subtask : Bool
  fields : List (String × CreateMetaField)

/-- A project of the legacy multi-type metadata shape. -/
structure ProjectMeta where
  name : String
  key : String
  issuetypes : List IssueType

/-- `CreateMetaResponse`: either the single-type shape (`fields`/`name`) or
the legacy multi-type shape (`projects`). `fields` is the entries list of the
field map. -/
structure CreateMetaResponse where
  fields : Option (List (String × CreateMetaField)) := none
  name : Option String := none
  description : Option String := none
  projects : Option (List ProjectMeta) := none

/-- The two lines pushed per field by `formatFieldList`'s forEach body:
bullet with display name and display id, then the indented detail line. -/
def fieldEntryLines (fieldId : String) (field : CreateMetaField) : List String :=
  let displayId := jsOr field.key (jsOr field.fieldId fieldId)
  let details :=
    ["Type: " ++ field.schema.type]
    ++ (if strTruthy field.schema.system then ["System: " ++ field.schema.system.getD ""] else [])
    ++ (if strTruthy field.schema.custom then ["Custom: " ++ field.schema.custom.getD ""] else [])
    ++ (match field.allowedValues with
        | some vals =>
          ["Values: " ++ joinSep ", " ((vals.take 5).map AllowedValue.display)
            ++ (if vals.length > 5 then "..." else "")]
        | none => [])
    ++ (match field.defaultValue with
        | some d => ["Default: " ++ d]
        | none => [])
  ["- **" ++ field.name ++ "** (`" ++ displayId ++ "`)", "  " ++ joinSep " | " details]

/-- `formatFieldList` from the create formatter: `*None*` when empty;
otherwise the per-field lines, limited to the first 10 fields (plus a
remaining-count note) when `limitOptional` is set. -/
def formatFieldList (fields : List (String × CreateMetaField))
    (limitOptional : Bool := false) : String :=
  if fields.length = 0 then "*None*"
  else
    joinLines
      (((if limitOptional then fields.take 10 else fields).flatMap fun kv =>
          fieldEntryLines kv.1 kv.2)
        ++ (if limitOptional ∧ fields.length > 10 then
              ["*... and " ++ toString (fields.length - 10) ++ " more optional fields*"]
            else []))

/-- The lines pushed by the single-issue-type branch of `formatCreateMeta`. -/
def singleTypeLines (fields : List (String × CreateMetaField)) (name : String)
    (description : Option String) : List String :=
  [formatHeading ("Issue Type: " ++ name) 2]
  ++ (if strTruthy description then ["*" ++ description.getD "" ++ "*", ""] else [])
  ++ [formatHeading "Required Fields" 3,
      formatFieldList (fields.filter fun kv => kv.2.required),
      "",
      formatHeading "Optional Fields" 3,
      formatFieldList (fields.filter fun kv => !kv.2.required)]

/-- The lines pushed for one issue type in the legacy multi-type branch. -/
def issueTypeBlockLines (issueType : IssueType) : List String :=
  [formatHeading issueType.name 2, "**ID**: " ++ issueType.id]
  ++ (if strTruthy issueType.description then
        ["**Description**: " ++ issueType.description.getD ""] else [])
  ++ ["**Subtask**: " ++ (if issueType.subtask then "Yes" else "No"), "",
      formatHeading "Required Fields" 3,
      formatFieldList (issueType.fields.filter fun kv => kv.2.required),
      "",
      formatHeading "Optional Fields" 3]
  ++ (if (issueType.fields.filter fun kv => !kv.2.required).length > 0 then
        [formatFieldList (issueType.fields.filter fun kv => !kv.2.required) true]
      else ["*No optional fields available.*"])

/-- The lines pushed by the legacy multi-type branch of `formatCreateMeta`
for the first project: project header, then every issue type's block, blocks
after the first preceded by a blank/separator/blank triple. -/
def legacyProjectLines (project : ProjectMeta) : List String :=
  ["**" ++ project.name ++ "** (" ++ project.key ++ ")", ""]
  ++ (project.issuetypes.enum.flatMap fun p =>
        (if p.1 > 0 then ["", formatSeparator, ""] else []) ++ issueTypeBlockLines p.2)

/-- The full lines array built by `formatCreateMeta`: header, then the
shape-dependent body (`fields && name` single-type branch, else
`projects?.length` legacy branch, else the no-issue-types fallback), then the
trailing separator and timestamp lines. -/
def formatCreateMetaLines (metadata : CreateMetaResponse) (projectKey now : String) :
    List String :=
  [formatHeading "Issue Creation Metadata" 1, "Project: **" ++ projectKey ++ "**", ""]
  ++ (if metadata.fields.isSome && strTruthy metadata.name then
        singleTypeLines (metadata.fields.getD []) (metadata.name.getD "") metadata.description
      else
        match metadata.projects with
        | some (project :: _) => legacyProjectLines project
        | _ => ["*No issue types available for this project.*"])
  ++ ["", formatSeparator, "*Retrieved at: " ++ now ++ "*"]

/-- `formatCreateMeta` from the create formatter. -/
def formatCreateMeta (metadata : CreateMetaResponse) (projectKey : String)
    (now : String) : String :=
  joinLines (formatCreateMetaLines metadata projectKey now)

/-- `ErrorCollection` attached to a create transition. `errors` is the
entries list of the field-name → message map. -/
structure ErrorCollection where
  errorMessages : Option (List String) := none
  errors : Option (List (String × String)) := none

/-- The optional `transition` part of a create-issue response. -/
structure TransitionInfo where
  status : Int
  errorCollection : Option ErrorCollection := none

/-- `CreateIssueResponse` from the vendor types. -/
structure CreateIssueResponse where
  key : String
  id : String
  self : String
  transition : Option TransitionInfo := none

/-- The full lines array built by `formatCreateIssueResponse`: success
heading, bullet list of key/id/API link/browse link (browse URL derived by
replacing `/rest/api/3/issue/` with `/browse/` in `self`), optional
transition status with warning and field-error bullets, trailing
separator and timestamp. -/
def formatCreateIssueResponseLines (env : DateEnv) (response : CreateIssueResponse)
    (now : String) : List String :=
  [formatHeading "✅ Issue Created Successfully" 1, ""]
  ++ [formatBulletList env
        [("Issue Key", JsValue.str response.key),
         ("Issue ID", JsValue.str response.id),
         ("Jira URL", JsValue.str (formatUrl (some response.self) (some "Open in Jira"))),
         ("Browse URL", JsValue.str (formatUrl
            (some (jsReplaceFirst response.self "/rest/api/3/issue/" "/browse/"))
            (some "View in Browser")))]]
  ++ (match response.transition with
      | some tr =>
        ["", formatHeading "Creation Status" 2, "Status Code: " ++ toString tr.status]
        ++ (match tr.errorCollection with
            | some errors =>
              (match errors.errorMessages with
               | some msgs =>
                 if msgs.length ≠ 0 then
                   ["", "**Warnings:**"] ++ msgs.map fun msg => "- " ++ msg
                 else []
               | none => [])
              ++ (match errors.errors with
                  | some errs =>
                    if errs.length > 0 then
                      ["", "**Field Errors:**"] ++ errs.map fun fe =>
                        "- **" ++ fe.1 ++ "**: " ++ fe.2
                    else []
                  | none => [])
            | none => [])
      | none => [])
  ++ ["", formatSeparator, "*Issue created at: " ++ now ++ "*"]

/-- `formatCreateIssueResponse` from the create formatter. -/
def formatCreateIssueResponse (env : DateEnv) (response : CreateIssueResponse)
    (now : String) : String :=
  joinLines (formatCreateIssueResponseLines env response now)

/-! Helper lemmas about the string-level plumbing. -/

/-- A line of the array is a contiguous substring of the joined string. -/
theorem mem_joinLines_data (s : String) (l : List String) (h : s ∈ l) :
    s.data <:+: (joinLines l).data := by
  induction l with
  | nil => cases h
  | cons a rest ih =>
    cases rest with
    | nil =>
      rcases List.mem_singleton.mp h with rfl
      exact List.infix_rfl
    | cons b rest' =>
      rcases List.mem_cons.mp h with rfl | hmem
      · show s.data <:+: (s ++ "\n" ++ joinLines (b :: rest')).data
        rw [String.data_append, String.data_append, List.append_assoc]
        exact List.IsPrefix.isInfix (List.prefix_append _ _)
      · have hi := ih hmem
        show s.data <:+: (a ++ "\n" ++ joinLines (b :: rest')).data
        rw [String.data_append, String.data_append]
        exact hi.trans (List.IsSuffix.isInfix (List.suffix_append _ _))

/-- The joined string of a nonempty array starts with the first line's first
character. -/
theorem joinLines_data_head (s : String) (rest : List String) (c : Char)
    (cs : List Char) (h : s.data = c :: cs) :
    ∃ t, (joinLines (s :: rest)).data = c :: t := by
  cases rest with
  | nil => exact ⟨cs, h⟩
  | cons b r =>
    refine ⟨cs ++ "\n".data ++ (joinLines (b :: r)).data, ?_⟩
    show ((s ++ "\n") ++ joinLines (b :: r)).data = _
    rw [String.data_append, String.data_append, h]
    simp

/-- The joined string of an array ending in `s` ends with `s`'s last
character. -/
theorem joinLines_data_last (l : List String) (s : String) (init : List Char)
    (c : Char) (h : s.data = init ++ [c]) :
    ∃ t, (joinLines (l ++ [s])).data = t ++ [c] := by
  induction l with
  | nil => exact ⟨init, h⟩
  | cons a l' ih =>
    rcases ih with ⟨t, ht⟩
    cases l' with
    | nil =>
      refine ⟨a.data ++ "\n".data ++ t, ?_⟩
      show ((a ++ "\n") ++ joinLines ([] ++ [s])).data = _
      rw [String.data_append, ht]
      simp
    | cons b l'' =>
      refine ⟨a.data ++ "\n".data ++ t, ?_⟩
      show ((a ++ "\n") ++ joinLines ((b :: l'') ++ [s])).data = _
      rw [String.data_append, ht]
      simp

/-- `dropWhile` is the identity when the head fails the predicate. -/
theorem dropWhile_eq_self_of_head (p : Char → Bool) (c : Char) (l : List Char)
    (h : p c = false) : (c :: l).dropWhile p = c :: l := by
  rw [List.dropWhile_cons, h]
  simp

/-- The `trim`med string is a contiguous substring of the original. -/
theorem jsTrim_data_sub (s : String) : (jsTrim s).data <:+: s.data := by
  rcases s with ⟨l⟩
  show (((l.dropWhile jsWhitespace).reverse.dropWhile jsWhitespace).reverse : List Char) <:+: l
  have h1 : l.dropWhile jsWhitespace <:+ l := List.dropWhile_suffix _
  have h2 : ((l.dropWhile jsWhitespace).reverse.dropWhile jsWhitespace).reverse
      <+: l.dropWhile jsWhitespace := by
    rw [← List.reverse_suffix]
    simpa using List.dropWhile_suffix (l := (l.dropWhile jsWhitespace).reverse) jsWhitespace
  exact (List.IsPrefix.isInfix h2).trans (List.IsSuffix.isInfix h1)

/-- `trim` is the identity on a string whose first and last characters are
not whitespace. -/
theorem jsTrim_eq_self (s : String) (c1 c2 : Char) (l1 l2 : List Char)
    (h1 : s.data = c1 :: l1) (h2 : s.data = l2 ++ [c2])
    (w1 : jsWhitespace c1 = false) (w2 : jsWhitespace c2 = false) :
    jsTrim s = s := by
  rcases s with ⟨l⟩
  have h1' : l = c1 :: l1 := h1
  have h2' : l = l2 ++ [c2] := h2
  show String.mk (((l.dropWhile jsWhitespace).reverse.dropWhile jsWhitespace).reverse)
      = String.mk l
  congr 1
  subst h1'
  rw [dropWhile_eq_self_of_head _ _ _ w1, h2', List.reverse_append, List.reverse_singleton,
    List.singleton_append, dropWhile_eq_self_of_head _ _ _ w2, List.reverse_cons,
    List.reverse_reverse]

/-- A pattern that avoids the character `c` and sits at the front of
`a ++ c :: b` sits at the front of `a`. -/
theorem front_match_split (pat a b : List Char) (c : Char)
    (h : pat <+: a ++ c :: b) (hc : c ∉ pat) : pat <+: a := by
  rcases le_or_lt pat.length a.length with hle | hlt
  · have heq := List.prefix_iff_eq_take.mp h
    rw [List.take_append_of_le_length hle] at heq
    exact heq ▸ List.take_prefix _ _
  · exfalso
    rcases h with ⟨t, ht⟩
    have hidx : (pat ++ t)[a.length]? = some c := by
      rw [ht, List.getElem?_append_right (Nat.le_refl _)]
      simp
    rw [List.getElem?_append_left hlt] at hidx
    exact hc (List.getElem?_mem hidx)

/-- A pattern that avoids the character `c` and occurs inside `a ++ c :: b`
occurs inside `a` or inside `b`. -/
theorem match_split (pat a b : List Char) (c : Char)
    (h : pat <:+: a ++ c :: b) (hc : c ∉ pat) : pat <:+: a ∨ pat <:+: b := by
  induction a with
  | nil =>
    right
    rw [List.nil_append] at h
    rcases List.infix_cons_iff.mp h with hp | hi
    · cases pat with
      | nil => exact List.nil_infix
      | cons p ps =>
        rcases List.cons_prefix_cons.mp hp with ⟨rfl, _⟩
        exact absurd (List.mem_cons_self _ _) hc
    · exact hi
  | cons x a' ih =>
    rw [List.cons_append] at h
    rcases List.infix_cons_iff.mp h with hp | hi
    · left
      cases pat with
      | nil => exact List.nil_infix
      | cons p ps =>
        rcases List.cons_prefix_cons.mp hp with ⟨rfl, hps⟩
        have hps' : ps <+: a' :=
          front_match_split ps a' b c hps (fun hm => hc (List.mem_cons_of_mem _ hm))
        exact List.IsPrefix.isInfix (List.cons_prefix_cons.mpr ⟨rfl, hps'⟩)
    · rcases ih hi with h1 | h1
      · exact Or.inl (List.infix_cons h1)
      · exact Or.inr h1

/-- A newline-free pattern occurring in a joined lines array occurs in one of
the lines. -/
theorem joinLines_no_match (pat : List Char) (l : List String)
    (hne : pat ≠ []) (hnl : '\n' ∉ pat)
    (h : ∀ s ∈ l, ¬ pat <:+: s.data) :
    ¬ pat <:+: (joinLines l).data := by
  induction l with
  | nil =>
    intro hi
    exact hne (List.eq_nil_of_infix_nil hi)
  | cons a rest ih =>
    cases rest with
    | nil => simpa using h a (List.mem_singleton_self a)
    | cons b rest' =>
      intro hi
      have hi' : pat <:+: a.data ++ '\n' :: (joinLines (b :: rest')).data := by
        have : joinLines (a :: b :: rest') = a ++ "\n" ++ joinLines (b :: rest') := rfl
        rw [this, String.data_append, String.data_append, List.append_assoc] at hi
        simpa using hi
      rcases match_split pat _ _ '\n' hi' hnl with h1 | h1
      · exact h a (List.mem_cons_self _ _) h1
      · exact ih (fun s hs => h s (List.mem_cons_of_mem _ hs)) h1

/-- Characters produced by `Nat.digitChar` below base 10 are decimal
digits. -/
theorem digitChar_isDigit (k : Nat) (h : k < 10) : (Nat.digitChar k).isDigit = true := by
  interval_cases k <;> decide

/-- Every character accumulated by `Nat.toDigitsCore` at base 10 is a decimal
digit. -/
theorem toDigitsCore_digits (fuel : Nat) : ∀ (n : Nat) (acc : List Char),
    (∀ c ∈ acc, c.isDigit = true) →
    ∀ c ∈ Nat.toDigitsCore 10 fuel n acc, c.isDigit = true := by
  induction fuel with
  | zero =>
    intro n acc hacc c hc
    rw [Nat.toDigitsCore] at hc
    exact hacc c hc
  | succ fuel ih =>
    intro n acc hacc c hc
    rw [Nat.toDigitsCore] at hc
    have hd : (Nat.digitChar (n % 10)).isDigit = true :=
      digitChar_isDigit _ (Nat.mod_lt _ (by norm_num))
    by_cases h0 : n / 10 = 0
    · rw [if_pos h0] at hc
      rcases List.mem_cons.mp hc with rfl | hmem
      · exact hd
      · exact hacc c hmem
    · rw [if_neg h0] at hc
      refine ih (n / 10) _ ?_ c hc
      intro d hd'
      rcases List.mem_cons.mp hd' with rfl | hmem
      · exact hd
      · exact hacc d hmem

/-- Every character of `Nat.repr` is a decimal digit. -/
theorem natRepr_digits (n : Nat) : ∀ c ∈ (Nat.repr n).data, c.isDigit = true := by
  intro c hc
  have hdata : (Nat.repr n).data = Nat.toDigitsCore 10 (n + 1) n [] := rfl
  rw [hdata] at hc
  exact toDigitsCore_digits _ n [] (by intro d hd; cases hd) c hc

/-- Every character of `Int.repr` is a decimal digit or a minus sign. -/
theorem intRepr_digits (i : Int) : ∀ c ∈ (Int.repr i).data, c.isDigit = true ∨ c = '-' := by
  intro c hc
  cases i with
  | ofNat m => exact Or.inl (natRepr_digits m c hc)
  | negSucc m =>
    have : Int.repr (Int.negSucc m) = "-" ++ Nat.repr (m + 1) := rfl
    rw [this, String.data_append] at hc
    rcases List.mem_append.mp hc with h | h
    · right
      simpa using h
    · exact Or.inl (natRepr_digits _ c h)

/-- `replaceFirstAux` is the identity when the pattern does not occur. -/
theorem replaceFirstAux_eq_self (pat repl l : List Char) (h : ¬ pat <:+: l) :
    replaceFirstAux pat repl l = l := by
  induction l with
  | nil => rfl
  | cons c rest ih =>
    rw [replaceFirstAux]
    have hp : pat.isPrefixOf (c :: rest) = false := by
      rcases Bool.eq_false_or_eq_true (pat.isPrefixOf (c :: rest)) with hb | hb
      · exact absurd (List.IsPrefix.isInfix ( List.isPrefixOf_iff_prefix.mp hb)) h
      · exact hb
    rw [hp]
    simp only [Bool.false_eq_true, if_false]
    rw [ih (fun hx => h (List.infix_cons hx))]

/-- `String.replace` with a string pattern is the identity when the pattern
does not occur in the subject. -/
theorem jsReplaceFirst_eq_self (s pat repl : String) (h : ¬ pat.data <:+: s.data) :
    jsReplaceFirst s pat repl = s := by
  rcases s with ⟨l⟩
  show String.mk (replaceFirstAux pat.data repl.data l) = String.mk l
  congr 1
  exact replaceFirstAux_eq_self _ _ _ h

/-! Claim theorems. -/

/-- A string matching the ISO date-time pattern starts with a decimal
digit. -/
theorem isoDateTimeMatch_head (s : String) (h : isoDateTimeMatch s = true) :
    ∃ c t, s.data = c :: t ∧ c.isDigit = true := by
  unfold isoDateTimeMatch at h
  split at h
  · rename_i y1 y2 y3 y4 q1 m1 m2 q2 d1 d2 qt hh1 hh2 qc1 n1 n2 qc2 s1 s2 tail heq
    simp only [Bool.and_eq_true] at h
    exact ⟨y1, _, heq, by tauto⟩
  · exact absurd h (by simp)

/-- A string matching the ISO date-time pattern fails both `startsWith`
checks for absolute URLs. -/
theorem isoDateTimeMatch_not_url (s : String) (h : isoDateTimeMatch s = true) :
    jsStartsWith s "http://" = false ∧ jsStartsWith s "https://" = false := by
  rcases isoDateTimeMatch_head s h with ⟨c, t, hdata, hdig⟩
  have hne : ¬ c = 'h' := by
    intro hc
    subst hc
    exact absurd hdig (by decide)
  constructor
  · rw [jsStartsWith]
    cases hb : "http://".data.isPrefixOf s.data
    · rfl
    · exfalso
      have hp := List.isPrefixOf_iff_prefix.mp hb
      rw [hdata] at hp
      rcases List.cons_prefix_cons.mp hp with ⟨heq, _⟩
      exact hne heq.symm
  · rw [jsStartsWith]
    cases hb : "https://".data.isPrefixOf s.data
    · rfl
    · exfalso
      have hp := List.isPrefixOf_iff_prefix.mp hb
      rw [hdata] at hp
      rcases List.cons_prefix_cons.mp hp with ⟨heq, _⟩
      exact hne heq.symm

/-- C2: for every string matching the ISO-8601 date-time head
`YYYY-MM-DDTHH:MM:SS`, `formatValue` runs the date-string parse and returns
its locale-formatted result, falling back to exactly `Invalid date string`
if the parse throws — a sentinel distinct from the `Invalid date` sentinel
of the Date-object branch. -/
theorem formatValue_iso_string (env : DateEnv) (s : String)
    (h : isoDateTimeMatch s = true) :
    formatValue env (JsValue.str s)
        = (env.parseToLocaleString s).getD "Invalid date string"
    ∧ (∀ d : JsDate, env.dateToLocaleString d = none →
        formatValue env (JsValue.date d) = "Invalid date")
    ∧ ("Invalid date string" : String) ≠ "Invalid date" := by
  refine ⟨?_, ?_, by decide⟩
  · rcases isoDateTimeMatch_not_url s h with ⟨h1, h2⟩
    rw [formatValue, h1, h2]
    simp only [Bool.or_self, Bool.false_eq_true, if_false, h, if_true]
    cases henv : env.parseToLocaleString s
    · rfl
    · rfl
  · intro d hd
    rw [formatValue, hd]

/-- Witness for C2 with a runtime whose parse always throws: the
ISO-matching string maps to the `Invalid date string` sentinel and a failing
Date object to `Invalid date`. -/
theorem formatValue_iso_string_witness :
    formatValue ⟨fun _ => none, fun _ => none⟩ (JsValue.str "2023-01-02T03:04:05")
        = "Invalid date string"
    ∧ formatValue ⟨fun _ => none, fun _ => none⟩ (JsValue.date ⟨0⟩) = "Invalid date" := by
  have ht := formatValue_iso_string ⟨fun _ => none, fun _ => none⟩
    "2023-01-02T03:04:05" (by decide)
  exact ⟨ht.1, ht.2.1 ⟨0⟩ rfl⟩

/-- Helper for C7: dropping the last element of a list ending in a fixed
three-element tail. -/
theorem dropLast_append_three (X : List String) (a b c : String) :
    (X ++ [a, b, c]).dropLast = X ++ [a, b] := by
  rw [show ([a, b, c] : List String) = [a, b] ++ [c] from rfl, ← List.append_assoc,
    List.dropLast_concat]

/-- C7: for each of the three formatters, the lines of the output are a
deterministic function of the input except for the single trailing
timestamp line, so two renderings of the same input at different times
agree on everything before that line, and the full output is the common
lines followed by the timestamp line. -/
theorem formatters_time_only_timestamp :
    (∀ (m : CreateMetaResponse) (pk t1 t2 : String),
      (formatCreateMetaLines m pk t1).dropLast = (formatCreateMetaLines m pk t2).dropLast
      ∧ formatCreateMeta m pk t1
          = joinLines ((formatCreateMetaLines m pk t1).dropLast
              ++ ["*Retrieved at: " ++ t1 ++ "*"]))
    ∧ (∀ (env : DateEnv) (r : CreateIssueResponse) (t1 t2 : String),
      (formatCreateIssueResponseLines env r t1).dropLast
          = (formatCreateIssueResponseLines env r t2).dropLast
      ∧ formatCreateIssueResponse env r t1
          = joinLines ((formatCreateIssueResponseLines env r t1).dropLast
              ++ ["*Issue created at: " ++ t1 ++ "*"]))
    ∧ (∀ (p : ResponsePagination) (t1 t2 : String),
      (formatPaginationParts p t1).dropLast = (formatPaginationParts p t2).dropLast
      ∧ formatPagination p t1
          = jsTrim (joinLines ((formatPaginationParts p t1).dropLast
              ++ ["*Information retrieved at: " ++ t1 ++ "*"]))) := by
  refine ⟨fun m pk t1 t2 => ⟨?_, ?_⟩, fun env r t1 t2 => ⟨?_, ?_⟩,
    fun p t1 t2 => ⟨?_, ?_⟩⟩
  · rw [formatCreateMetaLines, formatCreateMetaLines, dropLast_append_three,
      dropLast_append_three]
  · rw [formatCreateMeta, formatCreateMetaLines, dropLast_append_three]
    simp [List.append_assoc]
  · rw [formatCreateIssueResponseLines, formatCreateIssueResponseLines,
      dropLast_append_three, dropLast_append_three]
  · rw [formatCreateIssueResponse, formatCreateIssueResponseLines,
      dropLast_append_three]
    simp [List.append_assoc]
  · show ((formatPaginationParts p t1 : List String)).dropLast
        = (formatPaginationParts p t2).dropLast
    rw [formatPaginationParts, formatPaginationParts, List.dropLast_concat,
      List.dropLast_concat]
  · rw [formatPagination, formatPaginationParts, List.dropLast_concat]

/-- C10: `formatUrl` returns the sentinel `Not available` for every falsy
url argument — both the absent url and the empty-string url, whatever the
title — so an empty-string URL is never rendered as a markdown link. -/
theorem formatUrl_falsy_not_available (title : Option String) :
    formatUrl none title = "Not available"
    ∧ formatUrl (some "") title = "Not available" := by
  exact ⟨rfl, rfl⟩

/-- C4: in the limited (legacy multi-type) mode, `formatFieldList` with more
than 10 fields renders exactly the first 10 entries followed by the
remaining-count note, while the unlimited (single-type) mode renders every
entry with no note. -/
theorem formatFieldList_truncation (fields : List (String × CreateMetaField))
    (h : fields.length > 10) :
    formatFieldList fields true
      = joinLines (((fields.take 10).flatMap fun kv => fieldEntryLines kv.1 kv.2)
          ++ ["*... and " ++ toString (fields.length - 10) ++ " more optional fields*"])
    ∧ formatFieldList fields false
      = joinLines (fields.flatMap fun kv => fieldEntryLines kv.1 kv.2) := by
  have hne : ¬ fields.length = 0 := by omega
  constructor
  · rw [formatFieldList, if_neg hne,
      if_pos (show true = true ∧ fields.length > 10 from ⟨rfl, h⟩)]
    rfl
  · rw [formatFieldList, if_neg hne]
    have : ¬ (false = true ∧ fields.length > 10) := by simp
    rw [if_neg this]
    simp

/-- Witness for C4: 12 optional fields render as the first 10 plus the note
`*... and 2 more optional fields*`. -/
theorem formatFieldList_truncation_witness :
    formatFieldList
        (List.replicate 12
          ("f", (⟨"Field", none, none, false, ⟨"string", none, none⟩, none, none⟩
            : CreateMetaField))) true
      = joinLines ((((List.replicate 12
            ("f", (⟨"Field", none, none, false, ⟨"string", none, none⟩, none, none⟩
              : CreateMetaField))).take 10).flatMap fun kv => fieldEntryLines kv.1 kv.2)
          ++ ["*... and 2 more optional fields*"]) :=
  (formatFieldList_truncation _ (by decide)).1

/-- C1 counterexample: for a legacy response with an empty `projects` array
the returned markdown is not exactly the italic no-issue-types line plus the
trailing separator/timestamp — the document also carries the level-1 heading
and the project line. -/
theorem createMeta_empty_projects_counterexample :
    formatCreateMeta ⟨none, none, none, some []⟩ "ABC" "TS"
      ≠ joinLines ["*No issue types available for this project.*", "",
          formatSeparator, "*Retrieved at: TS*"] := by
  decide

/-- C1 (amended): for a metadata response with an empty `projects` array and
no truthy single-type `fields`/`name` shape, the output is exactly the
header (level-1 heading and project line), a blank, the italic
no-issue-types line, and the trailing separator/timestamp lines. -/
theorem createMeta_empty_projects (m : CreateMetaResponse) (pk now : String)
    (hshape : m.fields = none ∨ m.name = none ∨ m.name = some "")
    (hproj : m.projects = some []) :
    formatCreateMeta m pk now
      = joinLines ["# Issue Creation Metadata", "Project: **" ++ pk ++ "**", "",
          "*No issue types available for this project.*", "", "---",
          "*Retrieved at: " ++ now ++ "*"] := by
  rcases m with ⟨f, n, d, p⟩
  have hp : p = some [] := hproj
  subst hp
  have hcond : (f.isSome && strTruthy n) = false := by
    rcases hshape with h | h | h
    · have : f = none := h
      subst this
      rfl
    · have : n = none := h
      subst this
      simp [strTruthy]
    · have : n = some "" := h
      subst this
      simp [strTruthy]
  rw [formatCreateMeta, formatCreateMetaLines, hcond]
  rfl

/-- Witness for C1's amended theorem at a concrete empty-projects response. -/
theorem createMeta_empty_projects_witness :
    formatCreateMeta ⟨none, none, none, some []⟩ "ABC" "TS"
      = joinLines ["# Issue Creation Metadata", "Project: **ABC**", "",
          "*No issue types available for this project.*", "", "---",
          "*Retrieved at: TS*"] :=
  createMeta_empty_projects _ "ABC" "TS" (Or.inl rfl) rfl

/-- C8: the single-type branch needs both `fields` present and `name` truthy.
Any response whose `name` is absent or the empty string (and whose `projects`
is absent or empty) renders the fallback document regardless of `fields`;
conversely `name` present and nonempty with `fields` the empty object still
renders as single-type, with `*None*` field sections. -/
theorem createMeta_branch_truthiness (m : CreateMetaResponse) (pk now name : String)
    (hname : m.name = none ∨ m.name = some "")
    (hproj : m.projects = none ∨ m.projects = some [])
    (hn : name ≠ "") :
    formatCreateMeta m pk now
      = joinLines ["# Issue Creation Metadata", "Project: **" ++ pk ++ "**", "",
          "*No issue types available for this project.*", "", "---",
          "*Retrieved at: " ++ now ++ "*"]
    ∧ formatCreateMeta ⟨some [], some name, none, none⟩ pk now
      = joinLines ["# Issue Creation Metadata", "Project: **" ++ pk ++ "**", "",
          "## Issue Type: " ++ name, "### Required Fields", "*None*", "",
          "### Optional Fields", "*None*", "", "---",
          "*Retrieved at: " ++ now ++ "*"] := by
  constructor
  · rcases m with ⟨f, n, d, p⟩
    have hcond : (f.isSome && strTruthy n) = false := by
      rcases hname with h | h
      · have : n = none := h
        subst this
        simp [strTruthy]
      · have : n = some "" := h
        subst this
        simp [strTruthy]
    rw [formatCreateMeta, formatCreateMetaLines, hcond]
    rcases hproj with h | h
    · have : p = none := h
      subst this
      rfl
    · have : p = some [] := h
      subst this
      rfl
  · have hb : (name == "") = false := by
      rcases Bool.eq_false_or_eq_true (name == "") with hb | hb
      · exact absurd (by simpa using hb) hn
      · exact hb
    have hcond : ((some ([] : List (String × CreateMetaField))).isSome
        && strTruthy (some name)) = true := by
      simp [strTruthy]
      exact hn
    rw [formatCreateMeta, formatCreateMetaLines, hcond]
    rfl

/-- Witness for C8 at a concrete pair of responses: fields present but name
empty falls back; name `Bug` with an empty fields object renders
single-type. -/
theorem createMeta_branch_truthiness_witness :
    formatCreateMeta ⟨some [("summary",
        ⟨"Summary", none, none, true, ⟨"string", none, none⟩, none, none⟩)],
        some "", none, none⟩ "ABC" "TS"
      = joinLines ["# Issue Creation Metadata", "Project: **ABC**", "",
          "*No issue types available for this project.*", "", "---",
          "*Retrieved at: TS*"]
    ∧ formatCreateMeta ⟨some [], some "Bug", none, none⟩ "ABC" "TS"
      = joinLines ["# Issue Creation Metadata", "Project: **ABC**", "",
          "## Issue Type: Bug", "### Required Fields", "*None*", "",
          "### Optional Fields", "*None*", "", "---", "*Retrieved at: TS*"] :=
  createMeta_branch_truthiness _ "ABC" "TS" "Bug" (Or.inr rfl) (Or.inl rfl)
    (by decide)

/-- C3: the create-issue formatter derives the Browse URL by replacing
`/rest/api/3/issue/` with `/browse/` in `self`: for the canonical API URL the
rendered document carries the browse bullet with target
`https://x.atlassian.net/browse/10001`, and for any `self` not containing
the substring the replacement is a no-op, so the browse link target equals
the API link target. -/
theorem createIssue_browse_url (env : DateEnv) (now self : String)
    (h : ¬ ("/rest/api/3/issue/".data <:+: self.data)) :
    ("- **Browse URL**: [View in Browser](https://x.atlassian.net/browse/10001)".data
        <:+: (formatCreateIssueResponse env
          ⟨"PROJ-1", "10001", "https://x.atlassian.net/rest/api/3/issue/10001", none⟩
          now).data)
    ∧ jsReplaceFirst self "/rest/api/3/issue/" "/browse/" = self := by
  constructor
  · have h4 : ("- **Browse URL**: [View in Browser](https://x.atlassian.net/browse/10001)"
        : String) ∈
        (["- **Issue Key**: PROJ-1", "- **Issue ID**: 10001",
          "- **Jira URL**: [Open in Jira](https://x.atlassian.net/rest/api/3/issue/10001)",
          "- **Browse URL**: [View in Browser](https://x.atlassian.net/browse/10001)"]
          : List String) := by
      decide
    have hinner :
        ("- **Browse URL**: [View in Browser](https://x.atlassian.net/browse/10001)"
          : String).data <:+:
        (formatBulletList env
          [("Issue Key", JsValue.str "PROJ-1"), ("Issue ID", JsValue.str "10001"),
           ("Jira URL",
            JsValue.str "[Open in Jira](https://x.atlassian.net/rest/api/3/issue/10001)"),
           ("Browse URL",
            JsValue.str "[View in Browser](https://x.atlassian.net/browse/10001)")]).data := by
      show _ <:+: (joinLines
        ["- **Issue Key**: PROJ-1", "- **Issue ID**: 10001",
         "- **Jira URL**: [Open in Jira](https://x.atlassian.net/rest/api/3/issue/10001)",
         "- **Browse URL**: [View in Browser](https://x.atlassian.net/browse/10001)"]).data
      exact mem_joinLines_data _ _ h4
    have hmem : (formatBulletList env
        [("Issue Key", JsValue.str "PROJ-1"), ("Issue ID", JsValue.str "10001"),
         ("Jira URL",
          JsValue.str "[Open in Jira](https://x.atlassian.net/rest/api/3/issue/10001)"),
         ("Browse URL",
          JsValue.str "[View in Browser](https://x.atlassian.net/browse/10001)")])
        ∈ formatCreateIssueResponseLines env
          ⟨"PROJ-1", "10001", "https://x.atlassian.net/rest/api/3/issue/10001", none⟩
          now := by
      show _ ∈ (_ :: _ :: formatBulletList env _ :: _)
      exact List.mem_cons_of_mem _ (List.mem_cons_of_mem _ (List.mem_cons_self _ _))
    exact hinner.trans (mem_joinLines_data _ _ hmem)
  · exact jsReplaceFirst_eq_self _ _ _ h

/-- Witness for C3 at the canonical API URL and a non-matching `self`. -/
theorem createIssue_browse_url_witness :
    ("- **Browse URL**: [View in Browser](https://x.atlassian.net/browse/10001)".data
        <:+: (formatCreateIssueResponse ⟨fun _ => none, fun _ => none⟩
          ⟨"PROJ-1", "10001", "https://x.atlassian.net/rest/api/3/issue/10001", none⟩
          "TS").data)
    ∧ jsReplaceFirst "https://example.com/page" "/rest/api/3/issue/" "/browse/"
        = "https://example.com/page" :=
  createIssue_browse_url ⟨fun _ => none, fun _ => none⟩ "TS" "https://example.com/page"
    (by decide)

/-- The trim in `formatPagination` is the identity: the joined parts start
with the separator's `-` and end with the timestamp line's `*`. -/
theorem formatPagination_eq_joinLines (p : ResponsePagination) (now : String) :
    formatPagination p now = joinLines (formatPaginationParts p now) := by
  have htail : ∃ tail, formatPaginationParts p now = "---" :: tail := ⟨_, rfl⟩
  rcases htail with ⟨tail, htail⟩
  have hfront : ∃ front, formatPaginationParts p now
      = front ++ ["*Information retrieved at: " ++ now ++ "*"] := ⟨_, rfl⟩
  rcases hfront with ⟨front, hfront⟩
  rcases joinLines_data_head "---" tail '-' ['-', '-'] rfl with ⟨t1, ht1⟩
  rcases joinLines_data_last front ("*Information retrieved at: " ++ now ++ "*")
      ("*Information retrieved at: ".data ++ now.data) '*'
      (by rw [String.data_append, String.data_append]) with ⟨t2, ht2⟩
  rw [formatPagination]
  refine jsTrim_eq_self _ '-' '*' t1 t2 ?_ ?_ rfl rfl
  · rw [htail]
    exact ht1
  · rw [hfront]
    exact ht2

/-- C5: whenever `hasMore` is true and `nextCursor` is defined, the rendered
pagination footer contains the cursor value; when the cursor is nonempty it
appears inside the full `*Use --start-at <cursor> to view more.*` hint
line. -/
theorem pagination_footer_contains_cursor (p : ResponsePagination) (now c : String)
    (h1 : p.hasMore = true) (h2 : p.nextCursor = some c) :
    (c.data <:+: (formatPagination p now).data)
    ∧ (c ≠ "" →
        ("*Use --start-at " ++ c ++ " to view more.*").data
          <:+: (formatPagination p now).data) := by
  rw [formatPagination_eq_joinLines]
  by_cases hc : c = ""
  · subst hc
    exact ⟨ List.nil_infix, fun hne => absurd rfl hne⟩
  · have hstr : strTruthy (some c) = true := by
      rw [strTruthy]
      simpa using hc
    have hmem : ("*Use --start-at " ++ c ++ " to view more.*")
        ∈ formatPaginationParts p now := by
      rw [formatPaginationParts, h1, h2, hstr]
      simp
    have hcuse : c.data <:+: ("*Use --start-at " ++ c ++ " to view more.*").data := by
      refine ⟨"*Use --start-at ".data, " to view more.*".data, ?_⟩
      rw [String.data_append, String.data_append]
    exact ⟨hcuse.trans (mem_joinLines_data _ _ hmem),
      fun _ => mem_joinLines_data _ _ hmem⟩

/-- Witness for C5 at a concrete page with `hasMore` and cursor `25`. -/
theorem pagination_footer_contains_cursor_witness :
    (("25" : String).data
        <:+: (formatPagination ⟨some 3, true, some "25", some 10⟩ "TS").data)
    ∧ (("25" : String) ≠ "" →
        ("*Use --start-at " ++ "25" ++ " to view more.*").data
          <:+: (formatPagination ⟨some 3, true, some "25", some 10⟩ "TS").data) :=
  pagination_footer_contains_cursor _ "TS" "25" rfl rfl

/-- The minus sign and decimal digits of a rendered integer never include the
letter `U`. -/
theorem no_U_in_int (i : Int) : 'U' ∉ (toString i).data := by
  intro hm
  rcases intRepr_digits i 'U' hm with hd | hd
  · exact absurd hd (by decide)
  · exact absurd hd (by decide)

/-- A character list without `U` cannot contain the cursor-hint text. -/
theorem no_hint_of_no_U (l : List Char) (hc : 'U' ∉ l) :
    ¬ ("Use --start-at".data <:+: l) := by
  intro hi
  exact hc ( List.IsInfix.subset hi (by decide))

/-- The `*Showing … of … total items.*` line never contains the cursor-hint
text. -/
theorem showing_total_no_hint (cnt tot : Int) :
    ¬ ("Use --start-at".data
      <:+: ("*Showing " ++ toString cnt ++ " of " ++ toString tot
            ++ " total items.*").data) := by
  refine no_hint_of_no_U _ ?_
  intro hm
  rw [String.data_append, String.data_append, String.data_append,
    String.data_append] at hm
  rcases List.mem_append.mp hm with h1 | h1
  · rcases List.mem_append.mp h1 with h2 | h2
    · rcases List.mem_append.mp h2 with h3 | h3
      · rcases List.mem_append.mp h3 with h4 | h4
        · exact absurd h4 (by decide)
        · exact no_U_in_int cnt h4
      · exact absurd h3 (by decide)
    · exact no_U_in_int tot h2
  · exact absurd h1 (by decide)

/-- The `*Showing … item(s).*` line never contains the cursor-hint text. -/
theorem showing_count_no_hint (cnt : Int) :
    ¬ ("Use --start-at".data
      <:+: ("*Showing " ++ toString cnt ++ " item"
            ++ (if cnt != 1 then "s" else "") ++ ".*").data) := by
  refine no_hint_of_no_U _ ?_
  intro hm
  rw [String.data_append, String.data_append, String.data_append,
    String.data_append] at hm
  have hs : 'U' ∉ ((if cnt != 1 then "s" else "" : String)).data := by
    split
    · decide
    · decide
  rcases List.mem_append.mp hm with h1 | h1
  · rcases List.mem_append.mp h1 with h2 | h2
    · rcases List.mem_append.mp h2 with h3 | h3
      · rcases List.mem_append.mp h3 with h4 | h4
        · exact absurd h4 (by decide)
        · exact no_U_in_int cnt h4
      · exact absurd h3 (by decide)
    · exact hs h2
  · exact absurd h1 (by decide)

/-- C6: when `hasMore` is false the footer never contains `Use --start-at`,
for any input and any timestamp line that does not itself contain that
text. -/
theorem pagination_no_hint_when_no_more (p : ResponsePagination) (now : String)
    (h : p.hasMore = false)
    (hnow : ¬ ("Use --start-at".data
        <:+: ("*Information retrieved at: " ++ now ++ "*").data)) :
    ¬ ("Use --start-at".data <:+: (formatPagination p now).data) := by
  intro hi
  rw [formatPagination] at hi
  have hi' : "Use --start-at".data
      <:+: (joinLines (formatPaginationParts p now)).data :=
    List.IsInfix.trans hi (jsTrim_data_sub _)
  refine joinLines_no_match _ _ (by decide) (by decide) ?_ hi'
  intro s hs
  rw [formatPaginationParts, h] at hs
  simp only [Bool.false_and, Bool.false_eq_true, if_false, List.append_nil] at hs
  rcases htot : p.total with _ | tot
  · rw [htot] at hs
    simp only [showingParts] at hs
    by_cases hcnt : (0 : Int) ≤ p.count.getD 0
    · rw [if_pos hcnt] at hs
      simp only [List.mem_append, List.mem_singleton] at hs
      rcases hs with (rfl | rfl) | rfl
      · exact (by decide)
      · exact showing_count_no_hint _
      · exact hnow
    · rw [if_neg hcnt] at hs
      simp only [List.append_nil, List.mem_append, List.mem_singleton] at hs
      rcases hs with rfl | rfl
      · exact (by decide)
      · exact hnow
  · rw [htot] at hs
    simp only [showingParts] at hs
    by_cases h0 : (0 : Int) ≤ tot
    · rw [if_pos h0] at hs
      simp only [List.mem_append, List.mem_singleton] at hs
      rcases hs with (rfl | rfl) | rfl
      · exact (by decide)
      · exact showing_total_no_hint _ _
      · exact hnow
    · rw [if_neg h0] at hs
      by_cases hcnt : (0 : Int) ≤ p.count.getD 0
      · rw [if_pos hcnt] at hs
        simp only [List.mem_append, List.mem_singleton] at hs
        rcases hs with (rfl | rfl) | rfl
        · exact (by decide)
        · exact showing_count_no_hint _
        · exact hnow
      · rw [if_neg hcnt] at hs
        simp only [List.append_nil, List.mem_append, List.mem_singleton] at hs
        rcases hs with rfl | rfl
        · exact (by decide)
        · exact hnow

/-- Witness for C6 at a concrete exhausted page with a present cursor and a
realistic timestamp. -/
theorem pagination_no_hint_witness :
    ¬ ("Use --start-at".data
      <:+: (formatPagination ⟨some 3, false, some "25", none⟩
        "2025-01-01 12:00:00 UTC").data) :=
  pagination_no_hint_when_no_more _ _ rfl (by decide)

/-- The count line starts with `*Showing `. -/
theorem pred_showing_count (cnt : Int) :
    ("*Showing ".data.isPrefixOf
      ("*Showing " ++ toString cnt ++ " item"
        ++ (if cnt != 1 then "s" else "") ++ ".*").data) = true := by
  rw [ List.isPrefixOf_iff_prefix]
  simp only [String.data_append, List.append_assoc]
  exact List.prefix_append _ _

/-- The total line starts with `*Showing `. -/
theorem pred_showing_total (cnt tot : Int) :
    ("*Showing ".data.isPrefixOf
      ("*Showing " ++ toString cnt ++ " of " ++ toString tot
        ++ " total items.*").data) = true := by
  rw [ List.isPrefixOf_iff_prefix]
  simp only [String.data_append, List.append_assoc]
  exact List.prefix_append _ _

/-- The cursor-hint line does not start with `*Showing `. -/
theorem pred_use_false (c : String) :
    ("*Showing ".data.isPrefixOf
      ("*Use --start-at " ++ c ++ " to view more.*").data) = false := rfl

/-- The timestamp line does not start with `*Showing `. -/
theorem pred_info_false (now : String) :
    ("*Showing ".data.isPrefixOf
      ("*Information retrieved at: " ++ now ++ "*").data) = false := rfl

/-- C9 counterexample: a present negative `count` with no `total` produces a
footer with no `*Showing ` line at all, refuting the unconditional
exactly-one claim. -/
theorem pagination_showing_counterexample :
    ((formatPaginationParts ⟨some (-1), false, none, none⟩ "TS").countP
      fun l => "*Showing ".data.isPrefixOf l.data) ≠ 1 := by
  decide

/-- C9 (amended): for every pagination input whose `count` is absent or
non-negative, the rendered footer parts contain exactly one line beginning
`*Showing ` — an absent `count` defaults to 0, so the count condition holds
and a count line is emitted whenever the total line is not. -/
theorem pagination_showing_line (p : ResponsePagination) (now : String)
    (h : p.count = none ∨ ∃ n, p.count = some n ∧ 0 ≤ n) :
    ((formatPaginationParts p now).countP
      fun l => "*Showing ".data.isPrefixOf l.data) = 1 := by
  have hcnt : (0 : Int) ≤ p.count.getD 0 := by
    rcases h with h | ⟨n, hn, hge⟩
    · rw [h]
      exact le_refl 0
    · rw [hn]
      exact hge
  rw [formatPaginationParts, List.countP_append, List.countP_append,
    List.countP_append, List.countP_append]
  have hsep : (List.countP (fun l => "*Showing ".data.isPrefixOf l.data)
      [formatSeparator]) = 0 := by decide
  have hts : (List.countP (fun l => "*Showing ".data.isPrefixOf l.data)
      ["*Information retrieved at: " ++ now ++ "*"]) = 0 := by
    simp [List.countP_cons, pred_info_false]
  have hshow : (List.countP (fun l => "*Showing ".data.isPrefixOf l.data)
      (showingParts p.count p.total)) = 1 := by
    rcases htot : p.total with _ | tot
    · simp only [showingParts, if_pos hcnt]
      simp [List.countP_cons, pred_showing_count]
    · simp only [showingParts]
      by_cases h0 : (0 : Int) ≤ tot
      · rw [if_pos h0]
        simp [List.countP_cons, pred_showing_total]
      · rw [if_neg h0, if_pos hcnt]
        simp [List.countP_cons, pred_showing_count]
  have hmore : (List.countP (fun l => "*Showing ".data.isPrefixOf l.data)
      (if p.hasMore then ["More results are available."] else [])) = 0 := by
    cases p.hasMore
    · simp
    · decide
  have hcur : (List.countP (fun l => "*Showing ".data.isPrefixOf l.data)
      (if p.hasMore && strTruthy p.nextCursor then
        ["*Use --start-at " ++ p.nextCursor.getD "" ++ " to view more.*"]
      else [])) = 0 := by
    cases p.hasMore && strTruthy p.nextCursor
    · simp
    · simp [List.countP_cons, pred_use_false]
  rw [hsep, hts, hshow, hmore, hcur]

/-- Witness for C9's amended theorem at a page with absent count. -/
theorem pagination_showing_line_witness :
    ((formatPaginationParts ⟨none, true, some "5", some 10⟩ "TS").countP
      fun l => "*Showing ".data.isPrefixOf l.data) = 1 :=
  pagination_showing_line _ "TS" (Or.inl rfl)

end JiraFmt
